import Mathlib

/-!
Verification of the reconstruction-job orchestration service
(`backend/app.py`) against its natural-language specification.

The embedding models the per-job filesystem state (input directory,
output directory, metadata document) explicitly, and translates the
helpers (`_best_ply_path`, `_best_splat_path`, `_safe_filename`,
`_tail`), the worker task `recon_job`, and the HTTP handlers
(`create_job`, `get_job`, `download_points_ply`, `download_splat`)
into pure Lean functions.  External subprocesses (the COLMAP script and
the 3DGS script) are boundary components: their exit code, captured
output and the files they write are inputs of the model (`WorkerEnv`),
exactly as the orchestrator observes them.
-/

/-- A path relative to a job's directory, as a list of components. -/
abbrev FsPath := List String

/-- A flat file store: an association list from paths to file contents
(the most recent write for a path is the first matching entry). -/
structure FS where
  entries : List (FsPath × String)
deriving DecidableEq, Repr

/-- Look up a file's contents; `none` when the file does not exist. -/
def lookupFS : List (FsPath × String) → FsPath → Option String
  | [], _ => none
  | e :: es, p => if e.1 = p then some e.2 else lookupFS es p

def FS.read (fs : FS) (p : FsPath) : Option String :=
  lookupFS fs.entries p

/-- `Path.write_bytes` / `shutil.copyfile` target semantics: overwrite. -/
def FS.write (fs : FS) (p : FsPath) (c : String) : FS :=
  ⟨(p, c) :: fs.entries⟩

/-- Apply a batch of file writes (the files an external script produced). -/
def FS.writeList (fs : FS) : List (FsPath × String) → FS
  | [] => fs
  | e :: es => (fs.write e.1 e.2).writeList es

def emptyFS : FS := ⟨[]⟩

/-- `Path.exists()` on the modelled store. -/
def FS.pathExists (fs : FS) (p : FsPath) : Bool :=
  (fs.read p).isSome

/-- Candidate locations for the point-cloud artifact, in the priority
order hard-coded in `_best_ply_path` (app.py lines 86-91). -/
def plyCandidates : List FsPath :=
  [["points.ply"], ["points_dense.ply"], ["points_sparse.ply"],
   ["dense", "0", "points.ply"]]

/-- Candidate locations for the splat artifact, in the priority order
hard-coded in `_best_splat_path` (app.py lines 105-110). -/
def splatCandidates : List FsPath :=
  [["scene.splat"], ["gaussians.splat"], ["3dgs", "scene.splat"],
   ["3dgs", "gaussians.splat"]]

/-- The `for p in candidates: if p.exists(): return p` loop shared by
both resolvers; returns `none` when no candidate exists. -/
def findFirst (fs : FS) : List FsPath → Option FsPath
  | [] => none
  | p :: ps => if fs.pathExists p then some p else findFirst fs ps

/-- `_best_ply_path` (app.py lines 78-95). -/
def best_ply_path (fs : FS) : Option FsPath :=
  findFirst fs plyCandidates

/-- `_best_splat_path` (app.py lines 98-114). -/
def best_splat_path (fs : FS) : Option FsPath :=
  findFirst fs splatCandidates

/-- `_safe_filename` (app.py lines 70-71): both replacements are of a
single character, so the two chained `str.replace` calls amount to a
character map. -/
def safe_filename (name : String) : String :=
  String.mk (name.toList.map fun c =>
    if c = '/' ∨ c = '\\' then '_' else c)

/-- `_tail` (app.py lines 74-75): the final 6000 characters. -/
def tail6000 (s : String) : String :=
  String.mk (s.toList.drop (s.toList.length - 6000))

/-- Index of the last '.' in a name, mirroring `str.rfind`. -/
def lastDotIdx (cs : List Char) : Option Nat :=
  match cs.reverse.findIdx? (fun c => c == '.') with
  | some j => some (cs.length - 1 - j)
  | none => none

/-- `pathlib.PurePath` stem/suffix split: the suffix starts at the last
dot provided that dot is neither the leading nor the trailing
character; otherwise the suffix is empty. -/
def pySplitExt (name : String) : String × String :=
  let cut := match lastDotIdx name.toList with
    | some i =>
      if 0 < i ∧ i + 1 < name.toList.length then i else name.toList.length
    | none => name.toList.length
  (String.mk (name.toList.take cut), String.mk (name.toList.drop cut))

def pyStem (name : String) : String := (pySplitExt name).1

def pySuffix2 (name : String) : String := (pySplitExt name).2

/-- Containment of `pat` at some position of `l` (`in` on Python strings). -/
def containsSub (pat : List Char) : List Char → Bool
  | [] => pat.isEmpty
  | b :: ls => pat.isPrefixOf (b :: ls) || containsSub pat ls

/-- Substring containment, for the CUDA-hint sniffing on app.py line 215. -/
def strContains (s pat : String) : Bool :=
  containsSub pat.toList s.toList

/-- The job metadata document (the `meta` dict): every field the code
ever stores, each optional since the dict grows dynamically. -/
structure JobMeta where
  job_id : Option String := none
  status : Option String := none
  input_count : Option Nat := none
  files : Option (List String) := none
  error : Option String := none
  warning : Option String := none
  warning_3dgs : Option String := none
  hint : Option String := none
  last_cmd : Option String := none
  stdout_tail : Option String := none
  stderr_tail : Option String := none
  last_cmd_3dgs : Option String := none
  stdout_tail_3dgs : Option String := none
  stderr_tail_3dgs : Option String := none
  points_ply : Option FsPath := none
  points_ply_name : Option String := none
  splat : Option FsPath := none
  splat_name : Option String := none
  rq_id : Option String := none
deriving DecidableEq, Repr

/-- Per-job persistent state: whether the job directory was created,
the input and output directories, the metadata document on disk, and
the chronological trace of every `_write_meta` call. -/
structure WState where
  jobDirCreated : Bool
  inputFs : FS
  outputFs : FS
  metaDoc : Option JobMeta
  trace : List JobMeta
deriving Repr

def emptyWState : WState :=
  { jobDirCreated := false, inputFs := emptyFS, outputFs := emptyFS,
    metaDoc := none, trace := [] }

/-- `_write_meta` (app.py lines 65-67): overwrite the document in
place; the trace records the sequence of writes for the temporal
claims. -/
def write_meta (s : WState) (m : JobMeta) : WState :=
  { s with metaDoc := some m, trace := s.trace ++ [m] }

/-- Outcome of `subprocess.run` with captured output. -/
structure SubprocResult where
  returncode : Int
  stdout : String
  stderr : String
deriving DecidableEq, Repr

/-- Everything the worker observes from its environment: whether the
metadata document parses, whether each script file is installed, the
outcome of each subprocess launch (`Except.error` = the launch raised),
the files each script wrote into the output directory, and whether the
`shutil.copyfile` call succeeds. -/
structure WorkerEnv where
  metaReadable : Bool
  runColmapExists : Bool
  colmapRun : Except String SubprocResult
  colmapWrites : List (FsPath × String)
  copyOk : Bool
  run3dgsExists : Bool
  tdgsRun : Except String SubprocResult
  tdgsWrites : List (FsPath × String)

def cudaNeedle : String := "Dense stereo reconstruction requires CUDA"

def hintMsg : String :=
  "3DGS/Dense는 CUDA GPU 필요. 배포는 GPU 서버에서 학습/생성하도록 분리하는 게 정답."

/-- Rendering of `" ".join(cmd)`; the absolute path prefixes are
abstracted away as they are never inspected. -/
def cmdColmapStr : String := "bash run_colmap.sh input output"

def cmd3dgsStr : String := "bash run_3dgs.sh input output"

/-- Terminal write used by the `done_sparse` fall-through after a 3DGS
failure (app.py lines 212-218), including the CUDA hint sniffing. -/
def sparseFallback (m : JobMeta) (proc2 : SubprocResult) (s : WState) :
    Except (String × JobMeta × WState) (JobMeta × WState) :=
  let m3 := { m with
    status := some "done_sparse",
    warning_3dgs := some ("3DGS failed (code=" ++ toString proc2.returncode ++
      "). Sparse result is available.") }
  let m4 := if strContains ((m3.stderr_tail_3dgs.getD "") ++ (m3.stderr_tail.getD ""))
      cudaNeedle then { m3 with hint := some hintMsg } else m3
  .ok (m4, write_meta s m4)

/-- The optional 3DGS stage (app.py lines 186-224), entered after the
point-cloud artifact has been unified. -/
def stage3dgs (env : WorkerEnv) (m : JobMeta) (s : WState) :
    Except (String × JobMeta × WState) (JobMeta × WState) :=
  if env.run3dgsExists then
    let m1 := { m with status := some "running_3dgs" }
    let s1 := write_meta s m1
    match env.tdgsRun with
    | .error e => .error (e, m1, s1)
    | .ok proc2 =>
      let s2 := { s1 with outputFs := s1.outputFs.writeList env.tdgsWrites }
      let m2 := { m1 with
        last_cmd_3dgs := some cmd3dgsStr,
        stdout_tail_3dgs := some (tail6000 proc2.stdout),
        stderr_tail_3dgs := some (tail6000 proc2.stderr) }
      match best_splat_path s2.outputFs with
      | some sp =>
        if proc2.returncode = 0 then
          let m3 := { m2 with
            status := some "done_3dgs", splat := some sp,
            splat_name := some (sp.getLast?.getD "") }
          .ok (m3, write_meta s2 m3)
        else sparseFallback m2 proc2 s2
      | none => sparseFallback m2 proc2 s2
  else
    -- app.py lines 220-224: no 3DGS script installed
    let m1 := if m.status = some "done_sparse" ∨ m.status = some "done_3dgs"
      then m else { m with status := some "done_sparse" }
    .ok (m1, write_meta s m1)

/-- The body of the `try` block (app.py lines 147-224).  The source
calls `_best_ply_path` twice (lines 156 and 169); nothing writes to the
output directory between the two calls, so they return the same value
and are modelled by a single `match` whose `none` arm distinguishes the
two failure messages by the exit code (lines 157-166 and 170-174). -/
def tryBody (env : WorkerEnv) (m : JobMeta) (s : WState) :
    Except (String × JobMeta × WState) (JobMeta × WState) :=
  match env.colmapRun with
  | .error e => .error (e, m, s)
  | .ok proc =>
    let s1 := { s with outputFs := s.outputFs.writeList env.colmapWrites }
    let m1 := { m with
      last_cmd := some cmdColmapStr,
      stdout_tail := some (tail6000 proc.stdout),
      stderr_tail := some (tail6000 proc.stderr) }
    match best_ply_path s1.outputFs with
    | none =>
      if proc.returncode ≠ 0 then
        let mf := { m1 with
          status := some "failed",
          error := some ("COLMAP script failed (code=" ++
            toString proc.returncode ++ ")") }
        .ok (mf, write_meta s1 mf)
      else
        let mf := { m1 with
          status := some "failed",
          error := some "No PLY produced (sparse/dense not found)" }
        .ok (mf, write_meta s1 mf)
    | some p =>
      let m2 := if proc.returncode ≠ 0 then
          { m1 with
            status := some "done_sparse",
            warning := some ("COLMAP pipeline returned code=" ++
              toString proc.returncode ++ ", but sparse output exists.") }
        else m1
      if p = (["points.ply"] : FsPath) then
        let m3 := { m2 with
          points_ply_name := some "points.ply",
          points_ply := some (["points.ply"] : FsPath) }
        stage3dgs env m3 s1
      else if env.copyOk then
        let copied := s1.outputFs.write ["points.ply"] ((s1.outputFs.read p).getD "")
        let s2 := { s1 with outputFs := copied }
        let m3 := { m2 with
          points_ply_name := some "points.ply",
          points_ply := some (["points.ply"] : FsPath) }
        stage3dgs env m3 s2
      else .error ("copyfile failed", m2, s1)

/-- `recon_job` (app.py lines 120-230).  A result of `.error` models an
exception escaping to the worker's caller (the missing-job-directory
`raise` on line 129 and an unreadable metadata document on line 131 are
outside the `try` block); `.ok` is the returned `meta` dict.  The
second component is the job state after the run, including the trace of
metadata writes. -/
def recon_job (env : WorkerEnv) (s : WState) :
    Except String JobMeta × WState :=
  if s.jobDirCreated = false then (.error "job_dir not found", s)
  else if s.metaDoc.isSome ∧ env.metaReadable = false then
    (.error "meta.json unreadable", s)
  else
    let m0 := s.metaDoc.getD {}
    let m1 := { m0 with status := some "running" }
    let s1 := write_meta s m1
    if env.runColmapExists = false then
      let mf := { m1 with
        status := some "failed",
        error := some "run_colmap.sh not found" }
      (.ok mf, write_meta s1 mf)
    else
      match tryBody env m1 s1 with
      | .ok (m, s') => (.ok m, s')
      | .error (e, m, s') =>
        let mf := { m with
          status := some "failed",
          error := some ("Exception: " ++ e) }
        (.ok mf, write_meta s' mf)

/-- An uploaded multipart file part: `UploadFile.filename` may be
absent, plus the raw bytes. -/
structure Upload where
  filename : Option String
  content : String
deriving DecidableEq, Repr

/-- Environment of `create_job`: the generated job id, the id the
queue assigns, and the short random suffix drawn for the i-th file on
a name collision (`uuid.uuid4().hex` slice). -/
structure CreateEnv where
  jobId : String
  rqId : String
  sufs : Nat → String

/-- Body of the success response of `POST /api/jobs`. -/
structure CreateResp where
  job_id : String
  status : String
  input_count : Nat
deriving DecidableEq, Repr

/-- The upload-saving loop of `create_job` (app.py lines 252-263):
sanitize the name, divert to a suffixed name when the path already
exists, write the bytes, record the stored name.  `i` indexes the
random suffix drawn for each iteration. -/
def save_files (sufs : Nat → String) : Nat → List Upload → FS → FS × List String
  | _, [], fs => (fs, [])
  | i, f :: rest, fs =>
    let name := safe_filename (f.filename.getD "image.jpg")
    let stored := if (fs.read [name]).isSome
      then pyStem name ++ "_" ++ sufs i ++ pySuffix2 name
      else name
    let fs1 := fs.write [stored] f.content
    let r := save_files sufs (i + 1) rest fs1
    (r.1, stored :: r.2)

/-- `create_job` (app.py lines 241-277): reject fewer than two files
with HTTP 400; otherwise create the job directories, save the uploads,
write the metadata document (once before enqueueing and once again
with the queue task id), and answer with the job id. -/
def create_job (env : CreateEnv) (files : List Upload) (s : WState) :
    Except Nat CreateResp × WState :=
  if files.length < 2 then (.error 400, s)
  else
    let s1 := { s with jobDirCreated := true }
    let r := save_files env.sufs 0 files s1.inputFs
    let s2 := { s1 with inputFs := r.1 }
    let m1 : JobMeta := { job_id := some env.jobId, status := some "queued",
                          input_count := some r.2.length, files := some r.2 }
    let s3 := write_meta s2 m1
    let m2 := { m1 with rq_id := some env.rqId }
    let s4 := write_meta s3 m2
    (.ok { job_id := env.jobId, status := "queued", input_count := r.2.length }, s4)

/-- Body of the success response of `GET /api/jobs/job_id`. -/
structure JobPayload where
  job_id : String
  status : String
  input_count : Nat
  files : List String
  error : Option String
  warning : Option String
  warning_3dgs : Option String
  hint : Option String
  points_ply_exists : Bool
  points_ply_url : Option String
  splat_exists : Bool
  splat_url : Option String
deriving DecidableEq, Repr

/-- `get_job` (app.py lines 280-306): 404 when the metadata document
does not exist; otherwise resolve both artifacts against the output
directory and build the status payload. -/
def get_job (job_id : String) (metaDoc : Option JobMeta) (outputFs : FS) :
    Except Nat JobPayload :=
  match metaDoc with
  | none => .error 404
  | some meta =>
    let ply := best_ply_path outputFs
    let splat := best_splat_path outputFs
    .ok { job_id := job_id,
          status := meta.status.getD "unknown",
          input_count := meta.input_count.getD 0,
          files := meta.files.getD [],
          error := meta.error,
          warning := meta.warning,
          warning_3dgs := meta.warning_3dgs,
          hint := meta.hint,
          points_ply_exists := ply.isSome,
          points_ply_url := if ply.isSome
            then some ("/api/jobs/" ++ job_id ++ "/points.ply") else none,
          splat_exists := splat.isSome,
          splat_url := if splat.isSome
            then some ("/api/jobs/" ++ job_id ++ "/scene.splat") else none }

/-- A successful file download: resolved path, media type, and the
fixed download filename. -/
structure FileResp where
  path : FsPath
  media_type : String
  filename : String
deriving DecidableEq, Repr

/-- `download_points_ply` (app.py lines 309-317). -/
def download_points_ply (outputFs : FS) : Except Nat FileResp :=
  match best_ply_path outputFs with
  | none => .error 404
  | some p => .ok { path := p, media_type := "application/octet-stream",
                    filename := "points.ply" }

/-- `download_splat` (app.py lines 320-326). -/
def download_splat (outputFs : FS) : Except Nat FileResp :=
  match best_splat_path outputFs with
  | none => .error 404
  | some p => .ok { path := p, media_type := "application/octet-stream",
                    filename := "scene.splat" }

/-- End-to-end lifecycle of one job: `create_job` followed, when the
job was accepted and enqueued, by the worker run.  The resulting state
carries the full chronological trace of metadata writes. -/
def run_pipeline (cenv : CreateEnv) (wenv : WorkerEnv) (files : List Upload)
    (s : WState) : WState :=
  match create_job cenv files s with
  | (.error _, s') => s'
  | (.ok _, s') => (recon_job wenv s').2

/-- Status values of the metadata writes of a trace, in order. -/
def traceStatuses (t : List JobMeta) : List String :=
  t.map fun m => m.status.getD ""

/-- One step of the §4.5 state machine (the spec's transition diagram),
terminal transitions included. -/
def stepSM (a b : String) : Bool :=
  match a, b with
  | "queued", "running" => true
  | "running", "running_3dgs" => true
  | "running", "done_sparse" => true
  | "running", "failed" => true
  | "running_3dgs", "done_3dgs" => true
  | "running_3dgs", "done_sparse" => true
  | "running_3dgs", "failed" => true
  | _, _ => false

/-- Two successive recorded statuses never regress: either the status
repeats or it takes one forward step of the state machine. -/
def statusStep (a b : String) : Prop :=
  a = b ∨ stepSM a b = true

def okProc : SubprocResult := ⟨0, "", ""⟩

/-- A worker environment for concrete runs: reconstructor succeeds and
writes a sparse artifact, no 3DGS script installed. -/
def wenvBase : WorkerEnv :=
  { metaReadable := true, runColmapExists := true, colmapRun := .ok okProc,
    colmapWrites := [(["points_sparse.ply"], "PLYDATA")], copyOk := true,
    run3dgsExists := false, tdgsRun := .ok okProc, tdgsWrites := [] }

def sJob : WState := { emptyWState with jobDirCreated := true }

def envC3 : WorkerEnv := { wenvBase with colmapRun := .ok ⟨1, "", ""⟩ }

def envC3f : WorkerEnv :=
  { wenvBase with colmapRun := .ok ⟨1, "", ""⟩, colmapWrites := [] }

def envC7 : WorkerEnv :=
  { wenvBase with
    colmapRun := .ok ⟨1, "", "err: Dense stereo reconstruction requires CUDA"⟩ }

def envC7w : WorkerEnv :=
  { wenvBase with
    run3dgsExists := true,
    tdgsRun := .ok ⟨1, "", "Dense stereo reconstruction requires CUDA"⟩ }

/-- The identity-carrying metadata fields the worker never touches. -/
def framePreserves (m0 m : JobMeta) : Prop :=
  m.job_id = m0.job_id ∧ m.input_count = m0.input_count ∧
  m.files = m0.files ∧ m.rq_id = m0.rq_id

instance : DecidableRel statusStep := fun a b =>
  inferInstanceAs (Decidable (a = b ∨ stepSM a b = true))

def cenvW : CreateEnv := ⟨"j1", "q1", fun _ => "abc123"⟩

def filesW : List Upload := [⟨some "a.jpg", "A"⟩, ⟨some "b.jpg", "B"⟩]

def wenvSucc : WorkerEnv :=
  { wenvBase with
    run3dgsExists := true,
    tdgsRun := .ok okProc,
    tdgsWrites := [(["scene.splat"], "SPLAT")] }

theorem findFirst_eq_find? (fs : FS) (l : List FsPath) :
    findFirst fs l = l.find? fs.pathExists := by
  induction l with
  | nil => rfl
  | cons p ps ih =>
    by_cases h : fs.pathExists p
    · simp [findFirst, h, List.find?]
    · simp only [findFirst, h, if_false, List.find?]
      rw [ih]
      cases hp : fs.pathExists p
      · rfl
      · exact absurd hp (by simp [h])

/-- C4: each resolver returns the first existing path among its
candidates in the hard-coded order, and an absent result (never an
error) when no candidate exists. -/
theorem resolver_first_existing (fs : FS) :
    best_ply_path fs = List.find? fs.pathExists
      [["points.ply"], ["points_dense.ply"], ["points_sparse.ply"],
       ["dense", "0", "points.ply"]] ∧
    best_splat_path fs = List.find? fs.pathExists
      [["scene.splat"], ["gaussians.splat"], ["3dgs", "scene.splat"],
       ["3dgs", "gaussians.splat"]] ∧
    ((∀ p ∈ plyCandidates, fs.read p = none) → best_ply_path fs = none) ∧
    ((∀ p ∈ splatCandidates, fs.read p = none) → best_splat_path fs = none) := by
  refine ⟨findFirst_eq_find? fs plyCandidates,
          findFirst_eq_find? fs splatCandidates, ?_, ?_⟩ <;>
    intro h <;>
    simp [best_ply_path, best_splat_path, plyCandidates, splatCandidates,
      findFirst, FS.pathExists] <;>
    simp [plyCandidates, splatCandidates] at h
  · obtain ⟨h1, h2, h3, h4⟩ := h
    simp [h1, h2, h3, h4]
  · obtain ⟨h1, h2, h3, h4⟩ := h
    simp [h1, h2, h3, h4]

/-- C4 witness: on an empty output directory both resolvers return an
absent result. -/
theorem resolver_first_existing_witness :
    best_ply_path emptyFS = none ∧ best_splat_path emptyFS = none :=
  ⟨(resolver_first_existing emptyFS).2.2.1 (by decide),
   (resolver_first_existing emptyFS).2.2.2 (by decide)⟩

/-- C8: for a job id that was never created (no metadata document, no
job directory and hence an empty output tree), the status endpoint and
both download endpoints answer 404. -/
theorem unknown_job_not_found (job_id : String) :
    get_job job_id none emptyFS = .error 404 ∧
    download_points_ply emptyFS = .error 404 ∧
    download_splat emptyFS = .error 404 :=
  ⟨rfl, rfl, rfl⟩

theorem save_files_length (sufs : Nat → String) (l : List Upload) :
    ∀ (i : Nat) (fs : FS), ((save_files sufs i l fs).2).length = l.length := by
  induction l with
  | nil => intro i fs; rfl
  | cons f rest ih =>
    intro i fs
    simp only [save_files, List.length_cons]
    rw [ih]

/-- C5: job creation rejects 0 or 1 files with HTTP 400 and leaves the
state untouched; with 2 or more files it succeeds and answers the job
id, status queued, and an input count equal to the number of files
submitted. -/
theorem upload_validation (env : CreateEnv) (files : List Upload) (s : WState) :
    (files.length < 2 → create_job env files s = (.error 400, s)) ∧
    (2 ≤ files.length → (create_job env files s).1 =
      .ok { job_id := env.jobId, status := "queued",
            input_count := files.length }) := by
  constructor
  · intro h
    simp [create_job, h]
  · intro h
    have h2 : ¬ files.length < 2 := by omega
    simp only [create_job, h2, if_false]
    rw [save_files_length]

/-- C5 witness: one file is rejected; two files are accepted with
input count 2. -/
theorem upload_validation_witness :
    create_job ⟨"j1", "q1", fun _ => "abc123"⟩ [⟨some "a.jpg", "A"⟩] emptyWState
      = (.error 400, emptyWState) ∧
    (create_job ⟨"j1", "q1", fun _ => "abc123"⟩
        [⟨some "a.jpg", "A"⟩, ⟨some "b.jpg", "B"⟩] emptyWState).1
      = .ok { job_id := "j1", status := "queued", input_count := 2 } :=
  ⟨(upload_validation ⟨"j1", "q1", fun _ => "abc123"⟩ [⟨some "a.jpg", "A"⟩]
      emptyWState).1 (by decide),
   (upload_validation ⟨"j1", "q1", fun _ => "abc123"⟩
      [⟨some "a.jpg", "A"⟩, ⟨some "b.jpg", "B"⟩] emptyWState).2 (by decide)⟩

theorem mk_append (a b : List Char) :
    String.mk a ++ String.mk b = String.mk (a ++ b) := rfl

theorem mk_toList (s : String) : String.mk s.toList = s := rfl

/-- The pathlib stem/suffix split reassembles to the original name. -/
theorem pySplit_concat (n : String) : pyStem n ++ pySuffix2 n = n := by
  simp only [pyStem, pySuffix2, pySplitExt]
  rw [mk_append, List.take_append_drop]
  exact mk_toList n

/-- Inserting a nonempty `_suffix` between stem and extension always
changes the name. -/
theorem suffixed_name_ne (n suf : String) :
    n ≠ pyStem n ++ "_" ++ suf ++ pySuffix2 n := by
  intro h
  have h1 : (pyStem n ++ pySuffix2 n).length =
      (pyStem n ++ "_" ++ suf ++ pySuffix2 n).length := by
    rw [pySplit_concat, ← h]
  simp only [String.length_append] at h1
  have : ("_" : String).length = 1 := rfl
  omega

theorem FS.read_write (fs : FS) (p q : FsPath) (c : String) :
    (fs.write p c).read q = if p = q then some c else fs.read q := by
  simp [FS.write, FS.read, lookupFS]

/-- C9: two uploads whose post-sanitization names coincide are both
kept on disk: the first under the sanitized name, the second under the
name with a random suffix inserted before the extension; the two names
differ, neither write clobbers the other, and the metadata lists both
stored names. -/
theorem duplicate_filename_kept (env : CreateEnv) (u1 u2 : Upload) (s : WState)
    (n n2 : String)
    (hn1 : n = safe_filename (u1.filename.getD "image.jpg"))
    (hn : safe_filename (u2.filename.getD "image.jpg") = n)
    (hn2 : n2 = pyStem n ++ "_" ++ env.sufs 1 ++ pySuffix2 n)
    (h0 : s.inputFs.read [n] = none) :
    n ≠ n2 ∧
    ((create_job env [u1, u2] s).2).inputFs.read [n] = some u1.content ∧
    ((create_job env [u1, u2] s).2).inputFs.read [n2] = some u2.content ∧
    (∃ m, ((create_job env [u1, u2] s).2).metaDoc = some m ∧
      m.files = some [n, n2]) := by
  have hne : n ≠ n2 := hn2 ▸ suffixed_name_ne n (env.sufs 1)
  have e1 : ([n2] : FsPath) ≠ [n] := fun h => hne (List.cons.inj h).1.symm
  have e1' : ([n] : FsPath) ≠ [n2] := fun h => hne (List.cons.inj h).1
  have hlen : ¬ (([u1, u2] : List Upload).length < 2) := by simp
  refine ⟨hne, ?_, ?_, ?_⟩ <;>
    simp [create_job, hlen, save_files, ← hn1, hn, h0, FS.read_write,
      ← hn2, e1, e1', write_meta]

/-- C9 witness: two uploads both named a.jpg are stored as a.jpg and
a_abc123.jpg with their respective contents, and both names are listed
in the metadata. -/
theorem duplicate_filename_kept_witness :
    "a.jpg" ≠ "a_abc123.jpg" ∧
    ((create_job ⟨"j1", "q1", fun _ => "abc123"⟩
        [⟨some "a.jpg", "A"⟩, ⟨some "a.jpg", "B"⟩] emptyWState).2).inputFs.read
      ["a.jpg"] = some "A" ∧
    ((create_job ⟨"j1", "q1", fun _ => "abc123"⟩
        [⟨some "a.jpg", "A"⟩, ⟨some "a.jpg", "B"⟩] emptyWState).2).inputFs.read
      ["a_abc123.jpg"] = some "B" ∧
    (∃ m, ((create_job ⟨"j1", "q1", fun _ => "abc123"⟩
        [⟨some "a.jpg", "A"⟩, ⟨some "a.jpg", "B"⟩] emptyWState).2).metaDoc = some m ∧
      m.files = some ["a.jpg", "a_abc123.jpg"]) :=
  duplicate_filename_kept ⟨"j1", "q1", fun _ => "abc123"⟩
    ⟨some "a.jpg", "A"⟩ ⟨some "a.jpg", "B"⟩ emptyWState
    "a.jpg" "a_abc123.jpg" (by decide) (by decide) (by decide) rfl

/-- C2 counterexample: when the job directory is missing, the worker
raises (app.py line 129 sits before the `try` block), the exception
reaches the caller, and no `failed` status is recorded. -/
theorem worker_fault_counterexample :
    (recon_job wenvBase emptyWState).1 = .error "job_dir not found" ∧
    (recon_job wenvBase emptyWState).2.trace = [] :=
  ⟨rfl, rfl⟩

/-- C2 as amended: provided the job directory exists and the metadata
document is readable (the steps before the `try` block succeed), every
fault is caught at the top level and the worker always returns
normally; a fault raised at the reconstructor launch is recorded as
status failed with an Exception description. -/
theorem worker_faults_caught (env : WorkerEnv) (s : WState)
    (hdir : s.jobDirCreated = true) (hread : env.metaReadable = true) :
    ((recon_job env s).1.isOk = true) ∧
    (∀ e, env.runColmapExists = true → env.colmapRun = .error e → ∃ m,
      (recon_job env s).1 = .ok m ∧ m.status = some "failed" ∧
      m.error = some ("Exception: " ++ e)) := by
  constructor
  · simp only [recon_job, hdir, hread]
    split
    · simp_all
    · split
      · simp_all
      · split
        · simp [Except.isOk, Except.toBool]
        · split
          · simp [Except.isOk, Except.toBool]
          · simp [Except.isOk, Except.toBool]
  · intro e hex hce
    simp only [recon_job, hdir, hread, tryBody, hce]
    split
    · simp_all
    · split
      · simp_all
      · split
        · simp_all
        · exact ⟨_, rfl, rfl, rfl⟩

/-- C2 witness: a reconstructor launch fault on an existing job
directory is swallowed and recorded as failed. -/
theorem worker_faults_caught_witness :
    ((recon_job { wenvBase with colmapRun := .error "boom" }
        { emptyWState with jobDirCreated := true }).1.isOk = true) ∧
    (∃ m, (recon_job { wenvBase with colmapRun := .error "boom" }
        { emptyWState with jobDirCreated := true }).1 = .ok m ∧
      m.status = some "failed" ∧ m.error = some ("Exception: " ++ "boom")) := by
  have h := worker_faults_caught { wenvBase with colmapRun := .error "boom" }
    { emptyWState with jobDirCreated := true } rfl rfl
  exact ⟨h.1, h.2 "boom" rfl rfl⟩

theorem read_write_ne (fs : FS) (p q : FsPath) (c : String) (h : p ≠ q) :
    (fs.write p c).read q = fs.read q := by
  rw [FS.read_write, if_neg h]

@[simp] theorem write_meta_outputFs (s : WState) (m : JobMeta) :
    (write_meta s m).outputFs = s.outputFs := rfl

@[simp] theorem write_meta_inputFs (s : WState) (m : JobMeta) :
    (write_meta s m).inputFs = s.inputFs := rfl

@[simp] theorem write_meta_jobDirCreated (s : WState) (m : JobMeta) :
    (write_meta s m).jobDirCreated = s.jobDirCreated := rfl

@[simp] theorem write_meta_metaDoc (s : WState) (m : JobMeta) :
    (write_meta s m).metaDoc = some m := rfl

@[simp] theorem write_meta_trace (s : WState) (m : JobMeta) :
    (write_meta s m).trace = s.trace ++ [m] := rfl

/-- After copying to the unified name, the point-cloud resolver finds
`points.ply` first. -/
theorem best_ply_write_unified (fs : FS) (c : String) :
    best_ply_path (fs.write ["points.ply"] c) = some ["points.ply"] := by
  simp [best_ply_path, plyCandidates, findFirst, FS.pathExists, FS.read_write]

/-- The unified-name copy cannot create a splat artifact. -/
theorem best_splat_write_ply (fs : FS) (c : String) :
    best_splat_path (fs.write ["points.ply"] c) = best_splat_path fs := by
  simp [best_splat_path, splatCandidates, findFirst, FS.pathExists, FS.read_write]

theorem append3_ne_empty (a b c : String) (ha : 0 < a.length) :
    a ++ b ++ c ≠ "" := by
  intro h
  have h1 := congrArg String.length h
  simp only [String.length_append] at h1
  have h2 : String.length "" = 0 := rfl
  omega

/-- C3: with a reconstructor that exits nonzero, if a point-cloud
artifact is resolvable the job terminates as done_sparse with a
non-empty warning and the status payload reports the point cloud as
present and the splat as absent (given no 3DGS script and no stray
splat artifact); with no resolvable artifact the job terminates as
failed with a non-empty error. -/
theorem partial_success_and_full_failure (env : WorkerEnv) (s : WState)
    (proc : SubprocResult)
    (hdir : s.jobDirCreated = true) (hread : env.metaReadable = true)
    (hex : env.runColmapExists = true) (hc : env.colmapRun = .ok proc)
    (hrc : proc.returncode ≠ 0) :
    (∀ p, best_ply_path (s.outputFs.writeList env.colmapWrites) = some p →
      env.copyOk = true → env.run3dgsExists = false →
      best_splat_path (s.outputFs.writeList env.colmapWrites) = none →
      ∃ m, (recon_job env s).1 = .ok m ∧ m.status = some "done_sparse" ∧
        (∃ w, m.warning = some w ∧ w ≠ "") ∧
        ∀ jid, ∃ pay, get_job jid ((recon_job env s).2).metaDoc
            ((recon_job env s).2).outputFs = .ok pay ∧
          pay.status = "done_sparse" ∧
          pay.points_ply_exists = true ∧ pay.splat_exists = false) ∧
    (best_ply_path (s.outputFs.writeList env.colmapWrites) = none →
      ∃ m, (recon_job env s).1 = .ok m ∧ m.status = some "failed" ∧
        ∃ t, m.error = some t ∧ t ≠ "") := by
  constructor
  · intro p hply hcopy h3 hsplat
    by_cases hp : p = (["points.ply"] : FsPath)
    · subst hp
      simp [recon_job, hdir, hread, hex, tryBody, hc, stage3dgs, h3,
        hply, hrc, hcopy, get_job, hsplat]
      exact append3_ne_empty _ _ _ (by decide)
    · simp [recon_job, hdir, hread, hex, tryBody, hc, stage3dgs, h3,
        hply, hrc, hcopy, hp, get_job, hsplat, best_ply_write_unified,
        best_splat_write_ply]
      exact append3_ne_empty _ _ _ (by decide)
  · intro hnone
    simp [recon_job, hdir, hread, hex, tryBody, hc, hnone, hrc]
    exact append3_ne_empty _ _ _ (by decide)

/-- C3 witness: a nonzero reconstructor exit with a sparse artifact
ends done_sparse with warning and the expected payload booleans; the
same exit with no artifact ends failed with an error. -/
theorem partial_success_and_full_failure_witness :
    (∃ m, (recon_job envC3 sJob).1 = .ok m ∧ m.status = some "done_sparse" ∧
      (∃ w, m.warning = some w ∧ w ≠ "") ∧
      ∀ jid, ∃ pay, get_job jid ((recon_job envC3 sJob).2).metaDoc
          ((recon_job envC3 sJob).2).outputFs = .ok pay ∧
        pay.status = "done_sparse" ∧
        pay.points_ply_exists = true ∧ pay.splat_exists = false) ∧
    (∃ m, (recon_job envC3f sJob).1 = .ok m ∧ m.status = some "failed" ∧
      ∃ t, m.error = some t ∧ t ≠ "") := by
  constructor
  · exact (partial_success_and_full_failure envC3 sJob ⟨1, "", ""⟩
      rfl rfl rfl rfl (by decide)).1 ["points_sparse.ply"] (by decide)
      rfl rfl (by decide)
  · exact (partial_success_and_full_failure envC3f sJob ⟨1, "", ""⟩
      rfl rfl rfl rfl (by decide)).2 (by decide)

theorem findFirst_reads (fs : FS) (l : List FsPath) (p : FsPath)
    (h : findFirst fs l = some p) : (fs.read p).isSome = true := by
  induction l with
  | nil => simp [findFirst] at h
  | cons a as ih =>
    simp only [findFirst] at h
    by_cases ha : fs.pathExists a = true
    · rw [if_pos ha] at h
      obtain rfl := Option.some.inj h
      exact ha
    · rw [if_neg ha] at h
      exact ih h

theorem read_writeList_ne (l : List (FsPath × String)) :
    ∀ (fs : FS) (q : FsPath), (∀ e ∈ l, e.1 ≠ q) →
      (fs.writeList l).read q = fs.read q := by
  induction l with
  | nil => intro fs q _; rfl
  | cons e es ih =>
    intro fs q h
    simp only [FS.writeList]
    rw [ih _ _ (fun x hx => h x (List.mem_cons_of_mem _ hx)),
      read_write_ne _ _ _ _ (h e (List.mem_cons_self _ _))]

/-- Whatever the 3DGS stage does, it never changes the recorded
unified point-cloud path, and it only writes the trainer's own output
files. -/
theorem stage3dgs_ok_inv (env : WorkerEnv) (m : JobMeta) (s : WState)
    (mm : JobMeta) (ss : WState) (q : FsPath)
    (hq : ∀ e ∈ env.tdgsWrites, e.1 ≠ q)
    (hst : stage3dgs env m s = .ok (mm, ss)) :
    mm.points_ply = m.points_ply ∧ ss.outputFs.read q = s.outputFs.read q := by
  unfold stage3dgs at hst
  split at hst
  · try dsimp only at hst
    split at hst
    · exact absurd hst (by simp)
    · try dsimp only at hst
      split at hst
      · split at hst
        · obtain ⟨h1, h2⟩ := Prod.mk.injEq .. ▸ Except.ok.inj hst
          subst h1; subst h2
          simp [write_meta, read_writeList_ne env.tdgsWrites _ _ hq]
        · unfold sparseFallback at hst
          try dsimp only at hst
          split at hst <;>
          · obtain ⟨h1, h2⟩ := Prod.mk.injEq .. ▸ Except.ok.inj hst
            subst h1; subst h2
            simp [write_meta, read_writeList_ne env.tdgsWrites _ _ hq]
      · unfold sparseFallback at hst
        try dsimp only at hst
        split at hst <;>
        · obtain ⟨h1, h2⟩ := Prod.mk.injEq .. ▸ Except.ok.inj hst
          subst h1; subst h2
          simp [write_meta, read_writeList_ne env.tdgsWrites _ _ hq]
  · try dsimp only at hst
    split at hst
    · obtain ⟨h1, h2⟩ := Prod.mk.injEq .. ▸ Except.ok.inj hst
      subst h1; subst h2
      simp [write_meta]
    · obtain ⟨h1, h2⟩ := Prod.mk.injEq .. ▸ Except.ok.inj hst
      subst h1; subst h2
      simp [write_meta]

theorem stage3dgs_err_inv (env : WorkerEnv) (m : JobMeta) (s : WState)
    (e : String) (mm : JobMeta) (ss : WState)
    (hst : stage3dgs env m s = .error (e, mm, ss)) :
    mm.points_ply = m.points_ply ∧ ss.outputFs = s.outputFs := by
  unfold stage3dgs at hst
  split at hst
  · try dsimp only at hst
    split at hst
    · have h := Except.error.inj hst
      obtain ⟨h1, h2⟩ := Prod.mk.injEq .. ▸ h
      obtain ⟨h2, h3⟩ := Prod.mk.injEq .. ▸ h2
      subst h2; subst h3
      simp [write_meta]
    · try dsimp only at hst
      split at hst
      · split at hst
        · exact absurd hst (by simp)
        · unfold sparseFallback at hst
          try dsimp only at hst
          split at hst <;> exact absurd hst (by simp)
      · unfold sparseFallback at hst
        try dsimp only at hst
        split at hst <;> exact absurd hst (by simp)
  · try dsimp only at hst
    split at hst <;> exact absurd hst (by simp)

/-- C6: when the resolved point-cloud artifact is not already
`points.ply`, it is copied, not moved: after the worker finishes, the
output directory holds `points.ply` with the same bytes as the
resolved artifact, the original artifact file still exists, and the
returned metadata records `points_ply` as the unified path (provided
the copy succeeds and the optional trainer does not overwrite either
file). -/
theorem unified_copy_not_move (env : WorkerEnv) (s : WState)
    (proc : SubprocResult) (p : FsPath)
    (hdir : s.jobDirCreated = true) (hread : env.metaReadable = true)
    (hex : env.runColmapExists = true) (hc : env.colmapRun = .ok proc)
    (hply : best_ply_path (s.outputFs.writeList env.colmapWrites) = some p)
    (hp : p ≠ (["points.ply"] : FsPath)) (hcopy : env.copyOk = true)
    (hdisj : ∀ e ∈ env.tdgsWrites,
      e.1 ≠ (["points.ply"] : FsPath) ∧ e.1 ≠ p) :
    (((recon_job env s).2).outputFs.read ["points.ply"]
        = (s.outputFs.writeList env.colmapWrites).read p) ∧
    (((recon_job env s).2).outputFs.read p
        = (s.outputFs.writeList env.colmapWrites).read p) ∧
    (∀ m, (recon_job env s).1 = .ok m →
      m.points_ply = some (["points.ply"] : FsPath)) := by
  have hex1 : ((s.outputFs.writeList env.colmapWrites).read p).isSome = true :=
    findFirst_reads _ _ _ hply
  obtain ⟨c, hcc⟩ := Option.isSome_iff_exists.mp hex1
  have hne : (["points.ply"] : FsPath) ≠ p := fun h => hp h.symm
  by_cases hrc : proc.returncode = 0 <;>
    simp [recon_job, tryBody, hdir, hread, hex, hc, hply, hp, hcopy, hrc] <;>
  · split
    · rename_i mm ss heq
      have h1 := stage3dgs_ok_inv _ _ _ _ _ (["points.ply"] : FsPath)
        (fun e he => (hdisj e he).1) heq
      have h2 := stage3dgs_ok_inv _ _ _ _ _ p
        (fun e he => (hdisj e he).2) heq
      refine ⟨?_, ?_, ?_⟩
      · dsimp only
        rw [h1.2]
        simp [FS.read_write, hcc]
      · dsimp only
        rw [h2.2]
        simp [FS.read_write, hne, hcc]
      · intro m hm
        obtain rfl := Except.ok.inj hm
        rw [h1.1]
    · rename_i e2 mm ss heq
      have h := stage3dgs_err_inv _ _ _ _ _ _ heq
      refine ⟨?_, ?_, ?_⟩
      · dsimp only
        rw [write_meta_outputFs, h.2]
        simp [FS.read_write, hcc]
      · dsimp only
        rw [write_meta_outputFs, h.2]
        simp [FS.read_write, hne, hcc]
      · intro m hm
        obtain rfl := Except.ok.inj hm
        simp [h.1]

/-- C6 witness: with the artifact produced as `points_sparse.ply`, the
run leaves both `points.ply` and `points_sparse.ply` with identical
contents and records the unified path. -/
theorem unified_copy_not_move_witness :
    (((recon_job wenvBase sJob).2).outputFs.read ["points.ply"]
        = (sJob.outputFs.writeList wenvBase.colmapWrites).read
            ["points_sparse.ply"]) ∧
    (((recon_job wenvBase sJob).2).outputFs.read ["points_sparse.ply"]
        = (sJob.outputFs.writeList wenvBase.colmapWrites).read
            ["points_sparse.ply"]) ∧
    (∀ m, (recon_job wenvBase sJob).1 = .ok m →
      m.points_ply = some (["points.ply"] : FsPath)) :=
  unified_copy_not_move wenvBase sJob okProc ["points_sparse.ply"]
    rfl rfl rfl rfl (by decide) (by decide) rfl (by decide)

/-- C7 counterexample: the reconstructor's captured error text contains
the CUDA substring, yet with no 3DGS script installed the job finishes
done_sparse and no hint field is attached (the hint check only runs in
the trainer-failure branch). -/
theorem cuda_hint_counterexample :
    strContains (tail6000 "err: Dense stereo reconstruction requires CUDA")
      cudaNeedle = true ∧
    ((recon_job envC7 sJob).1.toOption.map JobMeta.stderr_tail)
      = some (some (tail6000 "err: Dense stereo reconstruction requires CUDA")) ∧
    ((recon_job envC7 sJob).1.toOption.map JobMeta.status)
      = some (some "done_sparse") ∧
    ((recon_job envC7 sJob).1.toOption.map JobMeta.hint) = some none := by
  refine ⟨by decide, by decide, by decide, by decide⟩

/-- In the fallback write after a 3DGS failure, the CUDA hint is
attached whenever the concatenated stderr tails contain the needle. -/
theorem sparseFallback_hint (m : JobMeta) (proc2 : SubprocResult) (s : WState)
    (mm : JobMeta) (ss : WState)
    (hst : sparseFallback m proc2 s = .ok (mm, ss))
    (hcuda : strContains ((m.stderr_tail_3dgs.getD "") ++ (m.stderr_tail.getD ""))
      cudaNeedle = true) :
    mm.hint = some hintMsg ∧ mm.status = some "done_sparse" := by
  unfold sparseFallback at hst
  try dsimp only at hst
  split at hst
  · obtain ⟨h1, h2⟩ := Prod.mk.injEq .. ▸ Except.ok.inj hst
    subst h1
    simp
  · rename_i hcond
    exact absurd hcuda (by simpa using hcond)

/-- With the trainer installed and its launch returning, the 3DGS
stage cannot raise. -/
theorem stage3dgs_ok_of_trainer_ok (env : WorkerEnv) (m : JobMeta) (s : WState)
    (proc2 : SubprocResult) (h3 : env.run3dgsExists = true)
    (ht : env.tdgsRun = .ok proc2) (e : String) (mm : JobMeta) (ss : WState) :
    stage3dgs env m s ≠ .error (e, mm, ss) := by
  intro hst
  simp only [stage3dgs, h3, ht, if_true] at hst
  try dsimp only at hst
  split at hst
  · split at hst
    · exact absurd hst (by simp)
    · unfold sparseFallback at hst
      try dsimp only at hst
      split at hst <;> exact absurd hst (by simp)
  · unfold sparseFallback at hst
    try dsimp only at hst
    split at hst <;> exact absurd hst (by simp)

/-- The 3DGS stage attaches the CUDA hint when the trainer stage fails
while the combined stderr text contains the needle. -/
theorem stage3dgs_fail_hint (env : WorkerEnv) (m : JobMeta) (s : WState)
    (mm : JobMeta) (ss : WState) (proc2 : SubprocResult)
    (h3 : env.run3dgsExists = true) (ht : env.tdgsRun = .ok proc2)
    (hst : stage3dgs env m s = .ok (mm, ss))
    (hfail : proc2.returncode ≠ 0 ∨
      best_splat_path (s.outputFs.writeList env.tdgsWrites) = none)
    (hcuda : strContains (tail6000 proc2.stderr ++ (m.stderr_tail.getD ""))
      cudaNeedle = true) :
    mm.hint = some hintMsg ∧ mm.status = some "done_sparse" := by
  simp only [stage3dgs, h3, ht, if_true] at hst
  try dsimp only at hst
  rcases hfail with hrc2 | hsp
  · split at hst
    · split at hst
      · exact absurd (by assumption) hrc2
      · exact sparseFallback_hint _ _ _ _ _ hst hcuda
    · exact sparseFallback_hint _ _ _ _ _ hst hcuda
  · rw [show (write_meta s { m with status := some "running_3dgs" }).outputFs
        = s.outputFs from rfl] at hst
    rw [hsp] at hst
    exact sparseFallback_hint _ _ _ _ _ hst hcuda

/-- C7 as amended: the advisory hint is attached (only) in the
trainer-failure branch: when the 3DGS script is installed, the trainer
launch returns, the stage fails (nonzero exit or no splat artifact),
and the concatenation of the trainer's and the reconstructor's stderr
tails contains the CUDA substring, the final metadata carries the
hint. -/
theorem cuda_hint_on_trainer_failure (env : WorkerEnv) (s : WState)
    (proc proc2 : SubprocResult) (p : FsPath)
    (hdir : s.jobDirCreated = true) (hread : env.metaReadable = true)
    (hex : env.runColmapExists = true) (hc : env.colmapRun = .ok proc)
    (hply : best_ply_path (s.outputFs.writeList env.colmapWrites) = some p)
    (hcopy : env.copyOk = true)
    (h3 : env.run3dgsExists = true) (ht : env.tdgsRun = .ok proc2)
    (hfail : proc2.returncode ≠ 0 ∨
      best_splat_path ((if p = (["points.ply"] : FsPath)
          then s.outputFs.writeList env.colmapWrites
          else (s.outputFs.writeList env.colmapWrites).write ["points.ply"]
            (((s.outputFs.writeList env.colmapWrites).read p).getD "")).writeList
        env.tdgsWrites) = none)
    (hcuda : strContains (tail6000 proc2.stderr ++ tail6000 proc.stderr)
      cudaNeedle = true) :
    ∃ m, (recon_job env s).1 = .ok m ∧ m.hint = some hintMsg ∧
      m.status = some "done_sparse" := by
  by_cases hp : p = (["points.ply"] : FsPath) <;>
  · simp only [hp, if_true, if_false, ite_true, ite_false] at hfail
    by_cases hrc : proc.returncode = 0 <;>
    · simp [recon_job, tryBody, hdir, hread, hex, hc, hply, hcopy, hp, hrc]
      split
      · rename_i mm ss heq
        have h := stage3dgs_fail_hint _ _ _ _ _ proc2 h3 ht heq
          (by exact hfail) (by exact hcuda)
        exact ⟨mm, rfl, h.1, h.2⟩
      · rename_i e2 mm ss heq
        exact absurd heq (stage3dgs_ok_of_trainer_ok _ _ _ proc2 h3 ht _ _ _)

/-- C7 amended witness: a failing trainer whose stderr contains the
CUDA substring yields a done_sparse record carrying the hint. -/
theorem cuda_hint_on_trainer_failure_witness :
    ∃ m, (recon_job envC7w sJob).1 = .ok m ∧ m.hint = some hintMsg ∧
      m.status = some "done_sparse" :=
  cuda_hint_on_trainer_failure envC7w sJob okProc
    ⟨1, "", "Dense stereo reconstruction requires CUDA"⟩
    ["points_sparse.ply"] rfl rfl rfl rfl (by decide) rfl rfl rfl
    (Or.inl (by decide)) (by decide)

theorem framePreserves_refl (a : JobMeta) : framePreserves a a :=
  ⟨rfl, rfl, rfl, rfl⟩

theorem framePreserves_trans {a b c : JobMeta} (h1 : framePreserves a b)
    (h2 : framePreserves b c) : framePreserves a c :=
  ⟨h2.1.trans h1.1, h2.2.1.trans h1.2.1, h2.2.2.1.trans h1.2.2.1,
   h2.2.2.2.trans h1.2.2.2⟩

theorem sparseFallback_frame (m : JobMeta) (proc2 : SubprocResult) (s : WState)
    (mm : JobMeta) (ss : WState)
    (hst : sparseFallback m proc2 s = .ok (mm, ss)) :
    framePreserves m mm ∧ ss.trace = s.trace ++ [mm] := by
  unfold sparseFallback at hst
  try dsimp only at hst
  split at hst <;>
  · obtain ⟨h1, h2⟩ := Prod.mk.injEq .. ▸ Except.ok.inj hst
    subst h1; subst h2
    simp [framePreserves, write_meta]

theorem stage3dgs_frame_ok (env : WorkerEnv) (m : JobMeta) (s : WState)
    (mm : JobMeta) (ss : WState)
    (hst : stage3dgs env m s = .ok (mm, ss)) :
    framePreserves m mm ∧
      ∀ x ∈ ss.trace, x ∈ s.trace ∨ framePreserves m x := by
  unfold stage3dgs at hst
  split at hst
  · try dsimp only at hst
    split at hst
    · exact absurd hst (by simp)
    · try dsimp only at hst
      split at hst
      · split at hst
        · obtain ⟨h1, h2⟩ := Prod.mk.injEq .. ▸ Except.ok.inj hst
          subst h1; subst h2
          refine ⟨by simp [framePreserves], ?_⟩
          intro x hx
          simp only [write_meta, List.mem_append, List.mem_singleton] at hx
          rcases hx with (hx | hx) | hx
          · exact Or.inl hx
          · exact Or.inr (by subst hx; simp [framePreserves])
          · exact Or.inr (by subst hx; simp [framePreserves])
        · obtain ⟨hf, htr⟩ := sparseFallback_frame _ _ _ _ _ hst
          refine ⟨framePreserves_trans (by simp [framePreserves]) hf, ?_⟩
          intro x hx
          rw [htr] at hx
          simp only [write_meta, List.mem_append, List.mem_singleton] at hx
          rcases hx with (hx | hx) | hx
          · exact Or.inl hx
          · exact Or.inr (by subst hx; simp [framePreserves])
          · subst hx
            exact Or.inr (framePreserves_trans (by simp [framePreserves]) hf)
      · obtain ⟨hf, htr⟩ := sparseFallback_frame _ _ _ _ _ hst
        refine ⟨framePreserves_trans (by simp [framePreserves]) hf, ?_⟩
        intro x hx
        rw [htr] at hx
        simp only [write_meta, List.mem_append, List.mem_singleton] at hx
        rcases hx with (hx | hx) | hx
        · exact Or.inl hx
        · exact Or.inr (by subst hx; simp [framePreserves])
        · subst hx
          exact Or.inr (framePreserves_trans (by simp [framePreserves]) hf)
  · try dsimp only at hst
    split at hst <;>
    · obtain ⟨h1, h2⟩ := Prod.mk.injEq .. ▸ Except.ok.inj hst
      subst h1; subst h2
      refine ⟨by simp [framePreserves], ?_⟩
      intro x hx
      simp only [write_meta, List.mem_append, List.mem_singleton] at hx
      rcases hx with hx | hx
      · exact Or.inl hx
      · exact Or.inr (by subst hx; simp [framePreserves])

theorem stage3dgs_frame_err (env : WorkerEnv) (m : JobMeta) (s : WState)
    (e : String) (mm : JobMeta) (ss : WState)
    (hst : stage3dgs env m s = .error (e, mm, ss)) :
    framePreserves m mm ∧
      ∀ x ∈ ss.trace, x ∈ s.trace ∨ framePreserves m x := by
  unfold stage3dgs at hst
  split at hst
  · try dsimp only at hst
    split at hst
    · have h := Except.error.inj hst
      obtain ⟨h1, h2⟩ := Prod.mk.injEq .. ▸ h
      obtain ⟨h2, h3⟩ := Prod.mk.injEq .. ▸ h2
      subst h2; subst h3
      refine ⟨by simp [framePreserves], ?_⟩
      intro x hx
      simp only [write_meta, List.mem_append, List.mem_singleton] at hx
      rcases hx with hx | hx
      · exact Or.inl hx
      · exact Or.inr (by subst hx; simp [framePreserves])
    · try dsimp only at hst
      split at hst
      · split at hst
        · exact absurd hst (by simp)
        · unfold sparseFallback at hst
          try dsimp only at hst
          split at hst <;> exact absurd hst (by simp)
      · unfold sparseFallback at hst
        try dsimp only at hst
        split at hst <;> exact absurd hst (by simp)
  · try dsimp only at hst
    split at hst <;> exact absurd hst (by simp)

theorem tryBody_frame_ok (env : WorkerEnv) (m : JobMeta) (s : WState)
    (mm : JobMeta) (ss : WState) (hst : tryBody env m s = .ok (mm, ss)) :
    framePreserves m mm ∧
      ∀ x ∈ ss.trace, x ∈ s.trace ∨ framePreserves m x := by
  unfold tryBody at hst
  split at hst
  · exact absurd hst (by simp)
  · try dsimp only at hst
    split at hst
    · split at hst <;>
      · obtain ⟨h1, h2⟩ := Prod.mk.injEq .. ▸ Except.ok.inj hst
        subst h1; subst h2
        refine ⟨by simp [framePreserves], ?_⟩
        intro x hx
        simp only [write_meta, List.mem_append, List.mem_singleton] at hx
        rcases hx with hx | hx
        · exact Or.inl hx
        · exact Or.inr (by subst hx; simp [framePreserves])
    · split at hst
      · obtain ⟨hf, hmem⟩ := stage3dgs_frame_ok _ _ _ _ _ hst
        refine ⟨framePreserves_trans (by simp [framePreserves, apply_ite]) hf, ?_⟩
        intro x hx
        rcases hmem x hx with h | h
        · exact Or.inl (by simpa using h)
        · exact Or.inr (framePreserves_trans
            (by simp [framePreserves, apply_ite]) h)
      · split at hst
        · obtain ⟨hf, hmem⟩ := stage3dgs_frame_ok _ _ _ _ _ hst
          refine ⟨framePreserves_trans (by simp [framePreserves, apply_ite]) hf, ?_⟩
          intro x hx
          rcases hmem x hx with h | h
          · exact Or.inl (by simpa using h)
          · exact Or.inr (framePreserves_trans
              (by simp [framePreserves, apply_ite]) h)
        · exact absurd hst (by simp)

theorem tryBody_frame_err (env : WorkerEnv) (m : JobMeta) (s : WState)
    (e : String) (mm : JobMeta) (ss : WState)
    (hst : tryBody env m s = .error (e, mm, ss)) :
    framePreserves m mm ∧
      ∀ x ∈ ss.trace, x ∈ s.trace ∨ framePreserves m x := by
  unfold tryBody at hst
  split at hst
  · have h := Except.error.inj hst
    obtain ⟨h1, h2⟩ := Prod.mk.injEq .. ▸ h
    obtain ⟨h2, h3⟩ := Prod.mk.injEq .. ▸ h2
    subst h2; subst h3
    exact ⟨framePreserves_refl m, fun x hx => Or.inl hx⟩
  · try dsimp only at hst
    split at hst
    · split at hst <;> exact absurd hst (by simp)
    · split at hst
      · obtain ⟨hf, hmem⟩ := stage3dgs_frame_err _ _ _ _ _ _ hst
        refine ⟨framePreserves_trans (by simp [framePreserves, apply_ite]) hf, ?_⟩
        intro x hx
        rcases hmem x hx with h | h
        · exact Or.inl (by simpa using h)
        · exact Or.inr (framePreserves_trans
            (by simp [framePreserves, apply_ite]) h)
      · split at hst
        · obtain ⟨hf, hmem⟩ := stage3dgs_frame_err _ _ _ _ _ _ hst
          refine ⟨framePreserves_trans (by simp [framePreserves, apply_ite]) hf, ?_⟩
          intro x hx
          rcases hmem x hx with h | h
          · exact Or.inl (by simpa using h)
          · exact Or.inr (framePreserves_trans
              (by simp [framePreserves, apply_ite]) h)
        · have h := Except.error.inj hst
          obtain ⟨h1, h2⟩ := Prod.mk.injEq .. ▸ h
          obtain ⟨h2, h3⟩ := Prod.mk.injEq .. ▸ h2
          subst h2; subst h3
          refine ⟨by simp [framePreserves, apply_ite], ?_⟩
          intro x hx
          exact Or.inl (by simpa using hx)

/-- C10: a worker run never alters the identity fields of the metadata
document it found: job_id, input_count, files (and the queue task id)
keep the values read at task start in every document the task writes
and in the returned document; the task only adds or overwrites the
status, diagnostic, artifact and advisory fields. -/
theorem worker_frame_fields (env : WorkerEnv) (s : WState)
    (h0 : s.trace = []) :
    (∀ m ∈ (recon_job env s).2.trace,
      framePreserves (s.metaDoc.getD {}) m) ∧
    (∀ m, (recon_job env s).1 = .ok m →
      framePreserves (s.metaDoc.getD {}) m) := by
  unfold recon_job
  split
  · refine ⟨?_, ?_⟩
    · intro m hm
      rw [h0] at hm
      exact absurd hm (List.not_mem_nil m)
    · intro m hm
      exact absurd hm (by simp)
  · split
    · refine ⟨?_, ?_⟩
      · intro m hm
        rw [h0] at hm
        exact absurd hm (List.not_mem_nil m)
      · intro m hm
        exact absurd hm (by simp)
    · try dsimp only
      split
      · refine ⟨?_, ?_⟩
        · intro m hm
          simp only [write_meta, List.mem_append, List.mem_singleton, h0,
            List.nil_append, List.append_nil] at hm
          rcases hm with hm | hm
          · subst hm; simp [framePreserves]
          · subst hm; simp [framePreserves]
        · intro m hm
          obtain rfl := Except.ok.inj hm
          simp [framePreserves]
      · split
        · rename_i mm ss heq
          obtain ⟨hf, hmem⟩ := tryBody_frame_ok _ _ _ _ _ heq
          refine ⟨?_, ?_⟩
          · intro m hm
            rcases hmem m hm with h | h
            · simp only [write_meta, List.mem_append, List.mem_singleton, h0,
                List.nil_append] at h
              subst h; simp [framePreserves]
            · exact framePreserves_trans (by simp [framePreserves]) h
          · intro m hm
            obtain rfl := Except.ok.inj hm
            exact framePreserves_trans (by simp [framePreserves]) hf
        · rename_i e mm ss heq
          obtain ⟨hf, hmem⟩ := tryBody_frame_err _ _ _ _ _ _ heq
          refine ⟨?_, ?_⟩
          · intro m hm
            simp only [write_meta, List.mem_append, List.mem_singleton] at hm
            rcases hm with hm | hm
            · rcases hmem m hm with h | h
              · simp only [write_meta, List.mem_append, List.mem_singleton, h0,
                  List.nil_append] at h
                subst h; simp [framePreserves]
              · exact framePreserves_trans (by simp [framePreserves]) h
            · subst hm
              refine framePreserves_trans (by simp [framePreserves])
                (framePreserves_trans hf ?_)
              simp [framePreserves]
          · intro m hm
            obtain rfl := Except.ok.inj hm
            refine framePreserves_trans (by simp [framePreserves])
              (framePreserves_trans hf ?_)
            simp [framePreserves]

/-- C10 witness: on a concrete successful run the first written
document and the returned document keep the identity fields of the
document read at start. -/
theorem worker_frame_fields_witness :
    framePreserves (sJob.metaDoc.getD {})
      (((recon_job wenvBase sJob).2).trace.getD 0 {}) ∧
    (∀ m, (recon_job wenvBase sJob).1 = .ok m →
      framePreserves (sJob.metaDoc.getD {}) m) :=
  ⟨(worker_frame_fields wenvBase sJob rfl).1 _ (by decide),
   (worker_frame_fields wenvBase sJob rfl).2⟩

theorem stage3dgs_chain_ok (env : WorkerEnv) (m : JobMeta) (s : WState)
    (mm : JobMeta) (ss : WState)
    (hm : m.status = some "running" ∨ m.status = some "done_sparse")
    (hst : stage3dgs env m s = .ok (mm, ss)) :
    ∃ W, traceStatuses ss.trace = traceStatuses s.trace ++ W ∧
      List.Chain statusStep "running" W := by
  unfold stage3dgs at hst
  split at hst
  · try dsimp only at hst
    split at hst
    · exact absurd hst (by simp)
    · try dsimp only at hst
      split at hst
      · split at hst
        · obtain ⟨h1, h2⟩ := Prod.mk.injEq .. ▸ Except.ok.inj hst
          subst h1; subst h2
          exact ⟨["running_3dgs", "done_3dgs"],
            by simp [write_meta, traceStatuses], (List.Chain.cons (Or.inr rfl) (List.Chain.cons (Or.inr rfl) List.Chain.nil))⟩
        · obtain ⟨hf, htr⟩ := sparseFallback_frame _ _ _ _ _ hst
          refine ⟨["running_3dgs", "done_sparse"], ?_, (List.Chain.cons (Or.inr rfl) (List.Chain.cons (Or.inr rfl) List.Chain.nil))⟩
          rw [htr]
          unfold sparseFallback at hst
          try dsimp only at hst
          split at hst <;>
          · obtain ⟨h1, h2⟩ := Prod.mk.injEq .. ▸ Except.ok.inj hst
            subst h1
            simp [write_meta, traceStatuses]
      · obtain ⟨hf, htr⟩ := sparseFallback_frame _ _ _ _ _ hst
        refine ⟨["running_3dgs", "done_sparse"], ?_, (List.Chain.cons (Or.inr rfl) (List.Chain.cons (Or.inr rfl) List.Chain.nil))⟩
        rw [htr]
        unfold sparseFallback at hst
        try dsimp only at hst
        split at hst <;>
        · obtain ⟨h1, h2⟩ := Prod.mk.injEq .. ▸ Except.ok.inj hst
          subst h1
          simp [write_meta, traceStatuses]
  · try dsimp only at hst
    split at hst <;>
      obtain ⟨h1, h2⟩ := Prod.mk.injEq .. ▸ Except.ok.inj hst <;>
      subst h1 <;> subst h2
    · rename_i hcond
      rcases hcond with hc1 | hc1
      · exact ⟨["done_sparse"],
          by simp [write_meta, traceStatuses, hc1],
          List.Chain.cons (Or.inr rfl) List.Chain.nil⟩
      · rcases hm with hm | hm <;> simp [hm] at hc1
    · exact ⟨["done_sparse"], by simp [write_meta, traceStatuses], (List.Chain.cons (Or.inr rfl) List.Chain.nil)⟩

theorem stage3dgs_chain_err (env : WorkerEnv) (m : JobMeta) (s : WState)
    (e : String) (mm : JobMeta) (ss : WState)
    (hst : stage3dgs env m s = .error (e, mm, ss)) :
    ∃ W, traceStatuses ss.trace = traceStatuses s.trace ++ W ∧
      List.Chain statusStep "running" (W ++ ["failed"]) := by
  unfold stage3dgs at hst
  split at hst
  · try dsimp only at hst
    split at hst
    · have h := Except.error.inj hst
      obtain ⟨h1, h2⟩ := Prod.mk.injEq .. ▸ h
      obtain ⟨h2, h3⟩ := Prod.mk.injEq .. ▸ h2
      subst h3
      exact ⟨["running_3dgs"], by simp [write_meta, traceStatuses], (List.Chain.cons (Or.inr rfl) (List.Chain.cons (Or.inr rfl) List.Chain.nil))⟩
    · try dsimp only at hst
      split at hst
      · split at hst
        · exact absurd hst (by simp)
        · unfold sparseFallback at hst
          try dsimp only at hst
          split at hst <;> exact absurd hst (by simp)
      · unfold sparseFallback at hst
        try dsimp only at hst
        split at hst <;> exact absurd hst (by simp)
  · try dsimp only at hst
    split at hst <;> exact absurd hst (by simp)

theorem traceStatuses_append (a b : List JobMeta) :
    traceStatuses (a ++ b) = traceStatuses a ++ traceStatuses b := by
  simp [traceStatuses]

theorem tryBody_chain_ok (env : WorkerEnv) (m : JobMeta) (s : WState)
    (mm : JobMeta) (ss : WState) (hm : m.status = some "running")
    (hst : tryBody env m s = .ok (mm, ss)) :
    ∃ W, traceStatuses ss.trace = traceStatuses s.trace ++ W ∧
      List.Chain statusStep "running" W := by
  unfold tryBody at hst
  split at hst
  · exact absurd hst (by simp)
  · try dsimp only at hst
    split at hst
    · split at hst <;>
      · obtain ⟨h1, h2⟩ := Prod.mk.injEq .. ▸ Except.ok.inj hst
        subst h1; subst h2
        exact ⟨["failed"], by simp [write_meta, traceStatuses],
          List.Chain.cons (Or.inr rfl) List.Chain.nil⟩
    · split at hst
      · obtain ⟨W, hW, hc⟩ := stage3dgs_chain_ok _ _ _ _ _
          (by simp only [apply_ite]; split <;> simp [hm]) hst
        exact ⟨W, by simpa using hW, hc⟩
      · split at hst
        · obtain ⟨W, hW, hc⟩ := stage3dgs_chain_ok _ _ _ _ _
            (by simp only [apply_ite]; split <;> simp [hm]) hst
          exact ⟨W, by simpa using hW, hc⟩
        · exact absurd hst (by simp)

theorem tryBody_chain_err (env : WorkerEnv) (m : JobMeta) (s : WState)
    (e : String) (mm : JobMeta) (ss : WState)
    (hst : tryBody env m s = .error (e, mm, ss)) :
    ∃ W, traceStatuses ss.trace = traceStatuses s.trace ++ W ∧
      List.Chain statusStep "running" (W ++ ["failed"]) := by
  unfold tryBody at hst
  split at hst
  · have h := Except.error.inj hst
    obtain ⟨h1, h2⟩ := Prod.mk.injEq .. ▸ h
    obtain ⟨h2, h3⟩ := Prod.mk.injEq .. ▸ h2
    subst h3
    exact ⟨[], by simp, List.Chain.cons (Or.inr rfl) List.Chain.nil⟩
  · try dsimp only at hst
    split at hst
    · split at hst <;> exact absurd hst (by simp)
    · split at hst
      · obtain ⟨W, hW, hc⟩ := stage3dgs_chain_err _ _ _ _ _ _ hst
        exact ⟨W, by simpa using hW, hc⟩
      · split at hst
        · obtain ⟨W, hW, hc⟩ := stage3dgs_chain_err _ _ _ _ _ _ hst
          exact ⟨W, by simpa using hW, hc⟩
        · have h := Except.error.inj hst
          obtain ⟨h1, h2⟩ := Prod.mk.injEq .. ▸ h
          obtain ⟨h2, h3⟩ := Prod.mk.injEq .. ▸ h2
          subst h3
          exact ⟨[], by simp, List.Chain.cons (Or.inr rfl) List.Chain.nil⟩

theorem recon_job_chain (env : WorkerEnv) (s : WState) :
    ∃ W, traceStatuses ((recon_job env s).2).trace
        = traceStatuses s.trace ++ W ∧
      List.Chain statusStep "queued" W := by
  unfold recon_job
  split
  · exact ⟨[], by simp, List.Chain.nil⟩
  · split
    · exact ⟨[], by simp, List.Chain.nil⟩
    · try dsimp only
      split
      · exact ⟨["running", "failed"],
          by simp [write_meta, traceStatuses],
          List.Chain.cons (Or.inr rfl)
            (List.Chain.cons (Or.inr rfl) List.Chain.nil)⟩
      · split
        · rename_i mm ss heq
          obtain ⟨W, hW, hch⟩ := tryBody_chain_ok _ _ _ _ _ rfl heq
          refine ⟨"running" :: W, ?_, List.Chain.cons (Or.inr rfl) hch⟩
          rw [hW, write_meta_trace, traceStatuses_append]
          simp [traceStatuses]
        · rename_i e mm ss heq
          obtain ⟨W, hW, hch⟩ := tryBody_chain_err _ _ _ _ _ _ heq
          refine ⟨"running" :: (W ++ ["failed"]), ?_,
            List.Chain.cons (Or.inr rfl) hch⟩
          rw [write_meta_trace, traceStatuses_append, hW, write_meta_trace,
            traceStatuses_append]
          simp [traceStatuses]

theorem recon_job_success_statuses (env : WorkerEnv) (s : WState)
    (proc proc2 : SubprocResult) (p sp : FsPath)
    (hdir : s.jobDirCreated = true) (hread : env.metaReadable = true)
    (hex : env.runColmapExists = true) (hc : env.colmapRun = .ok proc)
    (hrc : proc.returncode = 0)
    (hply : best_ply_path (s.outputFs.writeList env.colmapWrites) = some p)
    (hcopy : env.copyOk = true)
    (h3 : env.run3dgsExists = true) (ht : env.tdgsRun = .ok proc2)
    (hrc2 : proc2.returncode = 0)
    (hsp : best_splat_path ((if p = (["points.ply"] : FsPath)
        then s.outputFs.writeList env.colmapWrites
        else (s.outputFs.writeList env.colmapWrites).write ["points.ply"]
          (((s.outputFs.writeList env.colmapWrites).read p).getD "")).writeList
      env.tdgsWrites) = some sp) :
    traceStatuses ((recon_job env s).2).trace
      = traceStatuses s.trace ++ ["running", "running_3dgs", "done_3dgs"] := by
  by_cases hp : p = (["points.ply"] : FsPath) <;>
  · simp only [hp, if_true, if_false, ite_true, ite_false] at hsp
    simp [recon_job, tryBody, stage3dgs, hdir, hread, hex, hc, hrc, hply,
      hcopy, h3, ht, hrc2, hsp, hp, write_meta, traceStatuses]

theorem create_job_state (env : CreateEnv) (files : List Upload)
    (hlen : ¬ files.length < 2) :
    ((create_job env files emptyWState).2).outputFs = emptyFS ∧
    ((create_job env files emptyWState).2).jobDirCreated = true ∧
    traceStatuses ((create_job env files emptyWState).2).trace
      = ["queued", "queued"] := by
  simp [create_job, hlen, write_meta, traceStatuses, emptyWState]

theorem run_pipeline_eq (cenv : CreateEnv) (wenv : WorkerEnv)
    (files : List Upload) (hlen : ¬ files.length < 2) :
    run_pipeline cenv wenv files emptyWState
      = (recon_job wenv ((create_job cenv files emptyWState).2)).2 := by
  unfold run_pipeline
  rcases hcr : create_job cenv files emptyWState with ⟨r, s'⟩
  have h1 := (upload_validation cenv files emptyWState).2 (by omega)
  rw [hcr] at h1
  simp only at h1
  subst h1
  simp [hcr]

/-- C1 as amended: across job creation and the worker run, the status
values of successive metadata writes never regress along the §4.5
state machine (each write repeats the previous status or takes one
forward step); in the fully successful run (reconstructor exits 0 with
an artifact, trainer installed, exits 0 and leaves a splat) the
recorded sequence is queued, queued, running, running_3dgs, done_3dgs:
job creation writes the document twice with status queued (before and
after enqueueing), and deduplicating adjacent repeats gives exactly
queued, running, running_3dgs, done_3dgs. -/
theorem status_monotone_and_success_sequence :
    (∀ cenv wenv files, List.Chain' statusStep
        (traceStatuses (run_pipeline cenv wenv files emptyWState).trace)) ∧
    (∀ (cenv : CreateEnv) (wenv : WorkerEnv) (files : List Upload)
        (proc proc2 : SubprocResult) (p sp : FsPath),
      2 ≤ files.length → wenv.metaReadable = true →
      wenv.runColmapExists = true → wenv.colmapRun = .ok proc →
      proc.returncode = 0 →
      best_ply_path (emptyFS.writeList wenv.colmapWrites) = some p →
      wenv.copyOk = true → wenv.run3dgsExists = true →
      wenv.tdgsRun = .ok proc2 → proc2.returncode = 0 →
      best_splat_path ((if p = (["points.ply"] : FsPath)
          then emptyFS.writeList wenv.colmapWrites
          else (emptyFS.writeList wenv.colmapWrites).write ["points.ply"]
            (((emptyFS.writeList wenv.colmapWrites).read p).getD "")).writeList
        wenv.tdgsWrites) = some sp →
      traceStatuses (run_pipeline cenv wenv files emptyWState).trace
        = ["queued", "queued", "running", "running_3dgs", "done_3dgs"]) := by
  constructor
  · intro cenv wenv files
    by_cases hlen : files.length < 2
    · simp [run_pipeline, create_job, hlen, emptyWState, traceStatuses,
        List.Chain']
    · obtain ⟨ho, hd, hts⟩ := create_job_state cenv files hlen
      obtain ⟨W, hW, hch⟩ :=
        recon_job_chain wenv ((create_job cenv files emptyWState).2)
      rw [run_pipeline_eq cenv wenv files hlen, hW, hts]
      exact List.chain'_cons.mpr ⟨Or.inl rfl, hch⟩
  · intro cenv wenv files proc proc2 p sp hlen2 hread hex hc hrc hply hcopy
      h3 ht hrc2 hsp
    have hlen : ¬ files.length < 2 := by omega
    obtain ⟨ho, hd, hts⟩ := create_job_state cenv files hlen
    rw [← ho] at hply hsp
    rw [run_pipeline_eq cenv wenv files hlen,
      recon_job_success_statuses wenv ((create_job cenv files emptyWState).2)
        proc proc2 p sp hd hread hex hc hrc hply hcopy h3 ht hrc2 hsp, hts]
    rfl

/-- C1 counterexample: in a fully successful concrete run the recorded
status sequence has five writes, queued, queued, running, running_3dgs,
done_3dgs (job creation writes the metadata twice with status queued),
so it is not exactly the four-element sequence the claim states. -/
theorem status_sequence_counterexample :
    traceStatuses (run_pipeline cenvW wenvSucc filesW emptyWState).trace
      = ["queued", "queued", "running", "running_3dgs", "done_3dgs"] ∧
    traceStatuses (run_pipeline cenvW wenvSucc filesW emptyWState).trace
      ≠ ["queued", "running", "running_3dgs", "done_3dgs"] :=
  ⟨by decide, by decide⟩

/-- C1 witness: the same concrete successful run instantiates both the
monotonicity and the exact-sequence conjuncts of the amended claim. -/
theorem status_monotone_and_success_sequence_witness :
    List.Chain' statusStep
      (traceStatuses (run_pipeline cenvW wenvSucc filesW emptyWState).trace) ∧
    traceStatuses (run_pipeline cenvW wenvSucc filesW emptyWState).trace
      = ["queued", "queued", "running", "running_3dgs", "done_3dgs"] :=
  ⟨status_monotone_and_success_sequence.1 cenvW wenvSucc filesW,
   status_monotone_and_success_sequence.2 cenvW wenvSucc filesW okProc okProc
     ["points_sparse.ply"] ["scene.splat"] (by decide) rfl rfl rfl rfl
     (by decide) rfl rfl rfl rfl (by decide)⟩

/-- C8 witness: a concrete never-created job id gets 404 from all
three endpoints. -/
theorem unknown_job_not_found_witness :
    get_job "nosuchjob" none emptyFS = .error 404 ∧
    download_points_ply emptyFS = .error 404 ∧
    download_splat emptyFS = .error 404 :=
  unknown_job_not_found "nosuchjob"
